import Mathlib

/-!
Shallow embedding of `flask_googleauth.py` (flask-googleauth): the OpenID 2.0 +
Attribute Exchange relying-party core.  The protocol logic is pure: building the
authentication-request parameters (`_openid_args`), verifying and parsing the
provider callback (`_on_authentication_verified`, `get_ax_arg`), and the
redirect-URL join in `authenticate_redirect`.

Modelling conventions:
* Query/form parameter collections (`request.args`, the built args dict) are
  association lists `List (String × String)`; lookup returns the first binding,
  matching Werkzeug `MultiDict.get` / dict lookup on the distinct-key mappings
  the code builds.
* Python strings are Lean `String`s; slicing, `split`, `join`, `startswith`,
  `in` and `lower` are given structural (kernel-reducible) definitions below.
* URLs handled by `urlparse.urljoin` / site-root extraction are modelled in
  parsed form (`URL`: scheme, netloc, path, query); `urljoin` follows the
  Python 2.7 `urlparse.urljoin` algorithm on those components (the `params`
  and `fragment` components, empty in every use here, are omitted).
* Exceptions are `Except`: the `KeyError` raised by `known_attrs[name]` on an
  unknown attribute, and the exception `requests.post` raises on transport
  failure (which `get_authenticated_user` does not catch).
-/

set_option maxHeartbeats 1000000
set_option autoImplicit false

namespace FlaskGoogleAuth

/-- Query/form parameters: an association list; the first binding for a key
wins, as in Werkzeug `MultiDict.get`. -/
abbrev Args := List (String × String)

/-- `d.get(k)` / `d[k]` presence: first binding for `k`. -/
def getArg (args : Args) (k : String) : Option String :=
  (args.find? (fun p => decide (p.1 = k))).map Prod.snd

/-- `d.get(k, default)`. -/
def getArgD (args : Args) (k : String) (d : String) : String :=
  (getArg args k).getD d

/-- Python `s[n:]` (codepoint slicing). -/
def strDrop (s : String) (n : Nat) : String := String.mk (s.data.drop n)

/-- Python `s[:n]`. -/
def strTake (s : String) (n : Nat) : String := String.mk (s.data.take n)

/-- Python `len(s)`. -/
def strLen (s : String) : Nat := s.data.length

/-- Python `s.startswith(p)`. -/
def strStartsWith (s p : String) : Bool := p.data.isPrefixOf s.data

/-- Helper for Python's substring operator `in`. -/
def infixOf (needle : List Char) : List Char → Bool
  | [] => needle.isEmpty
  | c :: rest => needle.isPrefixOf (c :: rest) || infixOf needle rest

/-- Python `needle in hay` on strings. -/
def pyIn (needle hay : String) : Bool := infixOf needle.data hay.data

/-- Python `s.split(c)` for a one-character separator. -/
def splitChar (c : Char) : List Char → List (List Char)
  | [] => [[]]
  | x :: xs =>
    if x = c then [] :: splitChar c xs
    else
      match splitChar c xs with
      | [] => [[x]]
      | y :: ys => (x :: y) :: ys

def pySplit (s : String) (c : Char) : List String :=
  (splitChar c s.data).map String.mk

/-- Python `sep.join(l)`. -/
def pyJoin (sep : String) : List String → String
  | [] => ""
  | [s] => s
  | s :: s2 :: rest => s ++ sep ++ pyJoin sep (s2 :: rest)

/-- Python `s.lower()` (ASCII model). -/
def pyLower (s : String) : String := String.mk (s.data.map Char.toLower)

/-- `set(l)` as the list of first occurrences (set iteration order is
unspecified in Python 2; the model fixes first-occurrence order, which is a
deterministic refinement). -/
def dedupAux (seen : List String) : List String → List String
  | [] => []
  | x :: xs => if x ∈ seen then dedupAux seen xs else x :: dedupAux (x :: seen) xs

def dedup (l : List String) : List String := dedupAux [] l

/-! ## URLs and Python 2.7 `urlparse.urljoin` -/

/-- A URL in parsed form (`urlparse` components; `params`/`fragment`, empty in
every use in this code, are omitted). -/
structure URL where
  scheme : String
  netloc : String
  path : String
  query : String
deriving DecidableEq, Repr

def emptyURL : URL := ⟨"", "", "", ""⟩

/-- `urlparse.uses_relative` (Python 2.7). -/
def usesRelative : List String :=
  ["ftp", "http", "gopher", "nntp", "imap", "wais", "file", "https", "shttp",
   "mms", "prospero", "rtsp", "rtspu", "", "sftp", "svn", "svn+ssh"]

/-- `urlparse.uses_netloc` (Python 2.7). -/
def usesNetloc : List String :=
  ["ftp", "http", "gopher", "nntp", "telnet", "imap", "wais", "file", "mms",
   "https", "shttp", "snews", "prospero", "rtsp", "rtspu", "rsync", "",
   "svn", "svn+ssh", "sftp", "nfs", "git", "git+ssh"]

/-- `urlparse.urlunsplit` (Python 2.7), without params/fragment. -/
def urlunsplit (u : URL) : String :=
  let url0 := u.path
  let url1 :=
    if u.netloc ≠ "" ∨ (url0 ≠ "" ∧ strTake url0 2 = "//") then
      "//" ++ u.netloc ++ (if url0 ≠ "" ∧ strTake url0 1 ≠ "/" then "/" ++ url0 else url0)
    else url0
  let url2 := if u.scheme ≠ "" then u.scheme ++ ":" ++ url1 else url1
  if u.query ≠ "" then url2 ++ "?" ++ u.query else url2

/-- One step of the `..`-collapsing loop in `urljoin`: find the leftmost
segment pair `(a, "..")` where `".."` is not the last segment and `a` is
neither `""` nor `".."`, and delete both. -/
def removeDotDotOnce : List String → Option (List String)
  | a :: b :: c :: rest =>
    if b = ".." ∧ a ≠ "" ∧ a ≠ ".." then some (c :: rest)
    else
      match removeDotDotOnce (b :: c :: rest) with
      | some l => some (a :: l)
      | none => none
  | _ => none

/-- The `while 1` loop of `urljoin`, run on fuel (each step removes two
segments, so `segs.length` steps suffice). -/
def removeDotDotFuel : Nat → List String → List String
  | 0, segs => segs
  | Nat.succ fuel, segs =>
    match removeDotDotOnce segs with
    | some l => removeDotDotFuel fuel l
    | none => segs

/-- `if segments[-1] == '.': segments[-1] = ''`. -/
def fixLastDot (segs : List String) : List String :=
  if segs.getLast? = some "." then segs.dropLast ++ [""] else segs

/-- `while '.' in segments: segments.remove('.')`. -/
def removeDots (segs : List String) : List String := segs.filter (fun s => decide (s ≠ "."))

/-- The post-loop fixups on a trailing `..`. -/
def fixTrailingDotDot (segs : List String) : List String :=
  if segs = ["", ".."] then ["", ""]
  else if 2 ≤ segs.length ∧ segs.getLast? = some ".." then segs.dropLast.dropLast ++ [""]
  else segs

/-- `urlparse.urljoin` (Python 2.7) on parsed components.  A relative
reference is a `URL` with empty `scheme` (and possibly empty `netloc`);
`urlparse(url, bscheme)` defaulting the scheme is the `let scheme := ...`
binding. -/
def urljoin (base u : URL) : URL :=
  if base = emptyURL then u
  else if u = emptyURL then base
  else
    let scheme := if u.scheme = "" then base.scheme else u.scheme
    if ¬ (scheme = base.scheme ∧ scheme ∈ usesRelative) then u
    else if scheme ∈ usesNetloc ∧ u.netloc ≠ "" then
      { scheme := scheme, netloc := u.netloc, path := u.path, query := u.query }
    else
      let netloc := if scheme ∈ usesNetloc then base.netloc else u.netloc
      if strStartsWith u.path "/" then
        { scheme := scheme, netloc := netloc, path := u.path, query := u.query }
      else if u.path = "" then
        { scheme := scheme, netloc := netloc, path := base.path,
          query := if u.query = "" then base.query else u.query }
      else
        let segs0 := (pySplit base.path '/').dropLast ++ pySplit u.path '/'
        let segs1 := removeDots (fixLastDot segs0)
        let segs2 := fixTrailingDotDot (removeDotDotFuel segs1.length segs1)
        { scheme := scheme, netloc := netloc, path := pyJoin "/" segs2, query := u.query }

/-! ## RequestBuilder: `_openid_args` -/

def openidNsURI : String := "http://specs.openid.net/auth/2.0"
def identifierSelect : String := "http://specs.openid.net/auth/2.0/identifier_select"
def axNamespaceURI : String := "http://openid.net/srv/ax/1.0"

/-- The `known_attrs` table of `_openid_args`. -/
def knownAttrs : Args :=
  [("email", "http://axschema.org/contact/email"),
   ("language", "http://axschema.org/pref/language"),
   ("username", "http://axschema.org/namePerson/friendly")]

/-- The four tokens removed from the working set when `name` is requested:
`ax_attrs -= set(["name", "firstname", "fullname", "lastname"])`. -/
def nameExpansion : List String := ["name", "firstname", "fullname", "lastname"]

/-- `known_attrs[name]` raises `KeyError` on an unknown attribute name (the
spec's `UnknownAttributeError`). -/
inductive OpenIdError where
  | keyError (name : String)
deriving DecidableEq, Repr

/-- The `for name in ax_attrs` loop body: one `openid.ax.type.<name>` entry per
remaining attribute, failing with `KeyError` at the first unknown one. -/
def buildTypeEntries : List String → Except OpenIdError Args
  | [] => .ok []
  | n :: rest =>
    match getArg knownAttrs n with
    | none => .error (.keyError n)
    | some uri =>
      match buildTypeEntries rest with
      | .error e => .error e
      | .ok es => .ok (("openid.ax.type." ++ n, uri) :: es)

/-- The six fields every `_openid_args` result starts with. -/
def mandatoryArgs (currentURL : URL) (callbackURI : URL) : Args :=
  let url := urljoin currentURL callbackURI
  [("openid.ns", openidNsURI),
   ("openid.claimed_id", identifierSelect),
   ("openid.identity", identifierSelect),
   ("openid.return_to", urlunsplit url),
   ("openid.realm", urlunsplit (urljoin url ⟨"", "", "/", ""⟩)),
   ("openid.mode", "checkid_setup")]

/-- The two fixed AX fields added when any attribute is requested. -/
def axFixedArgs : Args :=
  [("openid.ns.ax", axNamespaceURI),
   ("openid.ax.mode", "fetch_request")]

/-- The three type fields the `name` expansion adds. -/
def nameTypeArgs : Args :=
  [("openid.ax.type.firstname", "http://axschema.org/namePerson/first"),
   ("openid.ax.type.fullname", "http://axschema.org/namePerson"),
   ("openid.ax.type.lastname", "http://axschema.org/namePerson/last")]

/-- The working set after the `name` expansion: `set(ax_attrs)`, minus the
four `nameExpansion` tokens when `name` was requested. -/
def axRest (axAttrs : List String) : List String :=
  let attrSet := dedup axAttrs
  if "name" ∈ attrSet then attrSet.filter (fun a => decide (a ∉ nameExpansion)) else attrSet

/-- The head of the `required` list: the three expanded names come first. -/
def axRequiredHead (axAttrs : List String) : List String :=
  if "name" ∈ dedup axAttrs then ["firstname", "fullname", "lastname"] else []

/-- `_openid_args(callback_uri, ax_attrs)`; `currentURL` is `request.url`.
The dict insertion order of the source is kept as list order. -/
def openidArgs (currentURL : URL) (callbackURI : URL) (axAttrs : List String) :
    Except OpenIdError Args :=
  if axAttrs = [] then .ok (mandatoryArgs currentURL callbackURI)
  else
    match buildTypeEntries (axRest axAttrs) with
    | .error e => .error e
    | .ok es =>
      .ok (mandatoryArgs currentURL callbackURI ++ axFixedArgs ++
        (if "name" ∈ dedup axAttrs then nameTypeArgs else []) ++ es ++
        [("openid.ax.required", pyJoin "," (axRequiredHead axAttrs ++ axRest axAttrs))])

def exceptIsOk (e : Except OpenIdError Args) : Bool :=
  match e with
  | .ok _ => true
  | .error _ => false

/-! ## ResponseVerifier: `_on_authentication_verified` and `get_ax_arg` -/

/-- The verification response from `requests.post`: transport status code and
raw body. -/
structure Response where
  status_code : Nat
  content : String
deriving DecidableEq, Repr

/-- `requests.codes.ok`. -/
def requestsCodesOk : Nat := 200

/-- The `ObjectDict` the verifier builds: only these seven keys are ever set,
each present iff its source value was non-empty. -/
structure UserProfile where
  first_name : Option String := none
  last_name : Option String := none
  name : Option String := none
  email : Option String := none
  locale : Option String := none
  username : Option String := none
  identity : Option String := none
deriving DecidableEq, Repr

/-- The AX namespace-alias scan: first key of the form `openid.ns.<alias>`
whose value is the AX namespace URI; the alias is `name[10:]`. -/
def findAxNs (args : Args) : Option String :=
  (args.find? (fun p =>
      strStartsWith p.1 "openid.ns." && decide (getArg args p.1 = some axNamespaceURI))).map
    (fun p => strDrop p.1 10)

def emailURI : String := "http://axschema.org/contact/email"
def fullNameURI : String := "http://axschema.org/namePerson"
def firstNameURI : String := "http://axschema.org/namePerson/first"
def lastNameURI : String := "http://axschema.org/namePerson/last"
def usernameURI : String := "http://axschema.org/namePerson/friendly"
def languageURI : String := "http://axschema.org/pref/language"

/-- `get_ax_arg(uri)`: double indirection through the alias-specific
`openid.<alias>.type.<suffix>` key whose value equals `uri`, reading
`openid.<alias>.value.<suffix>`.  `if not ax_ns` is also true for an empty
alias string, hence the extra emptiness test. -/
def get_ax_arg (args : Args) (axNs : Option String) (uri : String) : String :=
  match axNs with
  | none => ""
  | some ns =>
    if ns = "" then ""
    else
      let pre := "openid." ++ ns ++ ".type."
      match args.find? (fun p => decide (getArg args p.1 = some uri) && strStartsWith p.1 pre) with
      | none => ""
      | some p => getArgD args ("openid." ++ ns ++ ".value." ++ strDrop p.1 (strLen pre)) ""

/-- `_on_authentication_verified(callback, response)`: `callback(None)` on an
invalid assertion is `none`, `callback(user)` is `some user`.  The source's
`if not ok or "is_valid:true" not in response.content` is the negation of the
conjunction tested here. -/
def on_authentication_verified (cbArgs : Args) (response : Response) : Option UserProfile :=
  if ¬ (response.status_code = requestsCodesOk ∧ pyIn "is_valid:true" response.content = true) then
    none
  else
    let axNs := findAxNs cbArgs
    let email := get_ax_arg cbArgs axNs emailURI
    let name := get_ax_arg cbArgs axNs fullNameURI
    let first_name := get_ax_arg cbArgs axNs firstNameURI
    let last_name := get_ax_arg cbArgs axNs lastNameURI
    let username := get_ax_arg cbArgs axNs usernameURI
    let locale := pyLower (get_ax_arg cbArgs axNs languageURI)
    let identity := getArgD cbArgs "openid.claimed_id" ""
    let name_parts : List String :=
      (if first_name ≠ "" then [first_name] else []) ++
      (if last_name ≠ "" then [last_name] else [])
    some
      { first_name := if first_name ≠ "" then some first_name else none
        last_name := if last_name ≠ "" then some last_name else none
        name :=
          if name ≠ "" then some name
          else if name_parts ≠ [] then some (pyJoin " " name_parts)
          else if email ≠ "" then some ((pySplit email '@').headD "")
          else none
        email := if email ≠ "" then some email else none
        locale := if locale ≠ "" then some locale else none
        username := if username ≠ "" then some username else none
        identity := if identity ≠ "" then some identity else none }

/-- The exception `requests.post` raises when the verification call cannot
complete (connection error, timeout). -/
structure TransportError where
  msg : String
deriving DecidableEq, Repr

/-- Python `d[k] = v` on a dict built from the callback args. -/
def setArg (args : Args) (k v : String) : Args :=
  if (getArg args k).isSome then args.map (fun p => if p.1 = k then (k, v) else p)
  else args ++ [(k, v)]

/-- `get_authenticated_user(callback)`: builds the verification POST from the
callback args with `openid.mode` overridden, posts it to the
callback-supplied `openid.op_endpoint` (default: the configured endpoint),
and hands the response to `_on_authentication_verified`.  The source wraps
`requests.post` in no try/except, so a transport exception propagates to the
caller — modelled by the `Except` bind. -/
def get_authenticated_user (cbArgs : Args)
    (post : String → Args → Except TransportError Response)
    (endpoint : String) : Except TransportError (Option UserProfile) :=
  let args := setArg cbArgs "openid.mode" "check_authentication"
  let url := getArgD cbArgs "openid.op_endpoint" endpoint
  match post url args with
  | .error e => .error e
  | .ok r => .ok (on_authentication_verified cbArgs r)

/-! ## `authenticate_redirect` URL join and endpoints -/

/-- The redirect URL built by `authenticate_redirect`:
`endpoint + ("&" if "?" in endpoint else "?") + urlencode(args)`;
`encodedArgs` stands for the `urllib.urlencode(args)` query string. -/
def authenticate_redirect_url (endpoint : String) (encodedArgs : String) : String :=
  endpoint ++ (if pyIn "?" endpoint then "&" else "?") ++ encodedArgs

/-- `GoogleAuth._OPENID_ENDPOINT`. -/
def googleEndpoint : String := "https://www.google.com/accounts/o8/ud"

/-- `GoogleFederated.__init__`: `"https://www.google.com/a/%s/o8/ud?be=o8" % domain`. -/
def googleFederatedEndpoint (domain : String) : String :=
  "https://www.google.com/a/" ++ domain ++ "/o8/ud?be=o8"

/-! ## Helper lemmas -/

theorem string_append_left_cancel {p s t : String} (h : p ++ s = p ++ t) : s = t := by
  have h2 := congrArg String.data h
  rw [String.data_append, String.data_append] at h2
  have h3 := List.append_cancel_left h2
  cases s
  cases t
  exact congrArg String.mk h3

/-- `p ++ n` cannot equal a string `k` that does not begin with `p`. -/
theorem string_append_ne {p k : String} (n : String)
    (h : List.take p.data.length k.data ≠ p.data) : p ++ n ≠ k := by
  intro he
  apply h
  rw [← he, String.data_append, List.take_left]

theorem getArg_knownAttrs_cases {n u : String} (h : getArg knownAttrs n = some u) :
    n = "email" ∨ n = "language" ∨ n = "username" := by
  by_cases h1 : "email" = n
  · exact Or.inl h1.symm
  by_cases h2 : "language" = n
  · exact Or.inr (Or.inl h2.symm)
  by_cases h3 : "username" = n
  · exact Or.inr (Or.inr h3.symm)
  simp [getArg, knownAttrs, h1, h2, h3] at h

theorem buildTypeEntries_ok_mem {l : List String} {es : Args}
    (h : buildTypeEntries l = .ok es) :
    ∀ q ∈ es, ∃ n, n ∈ l ∧ getArg knownAttrs n = some q.2 ∧ q.1 = "openid.ax.type." ++ n := by
  induction l generalizing es with
  | nil =>
    simp [buildTypeEntries] at h
    subst h
    simp
  | cons n rest ih =>
    cases hk : getArg knownAttrs n with
    | none => simp [buildTypeEntries, hk] at h
    | some uri =>
      cases hb : buildTypeEntries rest with
      | error e => simp [buildTypeEntries, hk, hb] at h
      | ok es2 =>
        simp [buildTypeEntries, hk, hb] at h
        subst h
        intro q hq
        rcases List.mem_cons.mp hq with rfl | hmem
        · exact ⟨n, by simp, hk, rfl⟩
        · obtain ⟨m, hm, hma, hmk⟩ := ih hb q hmem
          exact ⟨m, by simp [hm], hma, hmk⟩

theorem buildTypeEntries_error_of_unknown {l : List String} {a : String}
    (ha : a ∈ l) (hu : getArg knownAttrs a = none) :
    ∃ e, buildTypeEntries l = .error e := by
  induction l with
  | nil => cases ha
  | cons n rest ih =>
    cases hk : getArg knownAttrs n with
    | none => exact ⟨.keyError n, by simp [buildTypeEntries, hk]⟩
    | some uri =>
      rcases List.mem_cons.mp ha with rfl | hmem
      · rw [hk] at hu
        cases hu
      · obtain ⟨e, he⟩ := ih hmem
        exact ⟨e, by simp [buildTypeEntries, hk, he]⟩

theorem mem_dedupAux {a : String} :
    ∀ {l seen : List String}, a ∈ dedupAux seen l ↔ a ∈ l ∧ a ∉ seen := by
  intro l
  induction l with
  | nil => simp [dedupAux]
  | cons x xs ih =>
    intro seen
    by_cases hx : x ∈ seen
    · rw [dedupAux, if_pos hx, ih]
      constructor
      · rintro ⟨h1, h2⟩
        exact ⟨List.mem_cons.mpr (Or.inr h1), h2⟩
      · rintro ⟨h1, h2⟩
        rcases List.mem_cons.mp h1 with rfl | h1
        · exact absurd hx h2
        · exact ⟨h1, h2⟩
    · rw [dedupAux, if_neg hx]
      constructor
      · intro hmem
        rcases List.mem_cons.mp hmem with rfl | h1
        · exact ⟨List.mem_cons_self _ _, hx⟩
        · rw [ih] at h1
          exact ⟨List.mem_cons.mpr (Or.inr h1.1),
                 fun hs => h1.2 (List.mem_cons.mpr (Or.inr hs))⟩
      · rintro ⟨h1, h2⟩
        rcases List.mem_cons.mp h1 with rfl | h1
        · exact List.mem_cons_self _ _
        · by_cases hax : a = x
          · subst hax
            exact List.mem_cons_self _ _
          · refine List.mem_cons.mpr (Or.inr ?_)
            rw [ih]
            exact ⟨h1, by simp [hax, h2]⟩

theorem mem_dedup {a : String} {l : List String} : a ∈ dedup l ↔ a ∈ l := by
  rw [dedup, mem_dedupAux]
  simp

theorem infixOf_append_left {n l2 : List Char} (l1 : List Char)
    (h : infixOf n l2 = true) : infixOf n (l1 ++ l2) = true := by
  induction l1 with
  | nil => simpa
  | cons c cs ih =>
    rw [List.cons_append, infixOf]
    simp [ih]

theorem getArg_append {l1 l2 : Args} {k : String} :
    getArg (l1 ++ l2) k = (getArg l1 k).or (getArg l2 k) := by
  rw [getArg, getArg, getArg, List.find?_append]
  cases List.find? (fun p => decide (p.1 = k)) l1 <;> simp

theorem splitChar_ne_nil (c : Char) (l : List Char) : splitChar c l ≠ [] := by
  cases l with
  | nil => simp [splitChar]
  | cons x xs =>
    rw [splitChar]
    by_cases hx : x = c
    · simp [hx]
    · simp only [if_neg hx]
      cases splitChar c xs <;> simp

/-- "The text before the first `@` / `/`": used to state the local-part rule. -/
def takeUntilChar (c : Char) : List Char → List Char
  | [] => []
  | x :: xs => if x = c then [] else x :: takeUntilChar c xs

theorem infixOf_nil_needle (l : List Char) : infixOf [] l = true := by
  cases l with
  | nil => rfl
  | cons c cs => simp [infixOf, List.isPrefixOf]

theorem infixOf_append_right {n l1 : List Char} (l2 : List Char)
    (h : infixOf n l1 = true) : infixOf n (l1 ++ l2) = true := by
  induction l1 with
  | nil =>
    rw [infixOf] at h
    rw [List.isEmpty_iff] at h
    subst h
    exact infixOf_nil_needle l2
  | cons c cs ih =>
    rw [List.cons_append, infixOf]
    rw [infixOf] at h
    rcases (Bool.or_eq_true _ _).mp h with h1 | h1
    · have h2 : n <+: c :: cs := List.isPrefixOf_iff_prefix.mp h1
      have h3 : n <+: c :: (cs ++ l2) := by
        rw [← List.cons_append]
        exact h2.trans (List.prefix_append _ l2)
      simp [List.isPrefixOf_iff_prefix.mpr h3]
    · simp [ih h1]

theorem splitChar_head (c : Char) (l : List Char) :
    (splitChar c l).headD [] = takeUntilChar c l := by
  induction l with
  | nil => simp [splitChar, takeUntilChar]
  | cons x xs ih =>
    by_cases hx : x = c
    · subst hx
      simp [splitChar, takeUntilChar]
    · rw [splitChar, if_neg hx, takeUntilChar, if_neg hx]
      cases hsp : splitChar c xs with
      | nil => exact absurd hsp (splitChar_ne_nil c xs)
      | cons y ys =>
        rw [hsp] at ih
        simpa using ih

theorem pySplit_head (s : String) (c : Char) :
    (pySplit s c).head?.getD "" = String.mk (takeUntilChar c s.data) := by
  rw [pySplit]
  cases hsp : splitChar c s.data with
  | nil => exact absurd hsp (splitChar_ne_nil c s.data)
  | cons y ys =>
    have h := splitChar_head c s.data
    rw [hsp] at h
    simp only [List.headD] at h
    simp only [List.map_cons, List.head?, Option.getD]
    exact congrArg String.mk h

/-! ## Claims -/

def c9Attrs : List String := ["email", "username"]

/-- What `_openid_args` builds for `{email, username}`. -/
def c9BuiltArgs : Args :=
  [("openid.ns", "http://specs.openid.net/auth/2.0"),
   ("openid.claimed_id", "http://specs.openid.net/auth/2.0/identifier_select"),
   ("openid.identity", "http://specs.openid.net/auth/2.0/identifier_select"),
   ("openid.return_to", "http://example.com/login/"),
   ("openid.realm", "http://example.com/"),
   ("openid.mode", "checkid_setup"),
   ("openid.ns.ax", "http://openid.net/srv/ax/1.0"),
   ("openid.ax.mode", "fetch_request"),
   ("openid.ax.type.email", "http://axschema.org/contact/email"),
   ("openid.ax.type.username", "http://axschema.org/namePerson/friendly"),
   ("openid.ax.required", "email,username")]

/-- A synthetic valid callback whose AX type/value keys (under the
provider-chosen alias `ext1`) carry exactly the type-URIs of the built
request. -/
def c9Callback : Args :=
  [("openid.mode", "id_res"),
   ("openid.claimed_id", "https://www.google.com/accounts/o8/id?id=xyz"),
   ("openid.ns.ext1", "http://openid.net/srv/ax/1.0"),
   ("openid.ext1.type.email", "http://axschema.org/contact/email"),
   ("openid.ext1.value.email", "u@x.com"),
   ("openid.ext1.type.username", "http://axschema.org/namePerson/friendly"),
   ("openid.ext1.value.username", "bob")]

def c9Resp : Response := ⟨200, "ns:http://specs.openid.net/auth/2.0\nis_valid:true\n"⟩

/-- **C1.** For every verification response, the assertion is treated as
invalid unless the transport status is `requests.codes.ok` and the body
contains the literal token `is_valid:true`; in every such invalid case the
callback is invoked with `None` and no error is raised: the whole call
returns `.ok none` (nil profile, no error). -/
theorem C1_invalid_assertion_nil_profile_no_error
    (cbArgs : Args) (post : String → Args → Except TransportError Response)
    (endpoint : String) (r : Response)
    (hpost : post (getArgD cbArgs "openid.op_endpoint" endpoint)
        (setArg cbArgs "openid.mode" "check_authentication") = .ok r)
    (hinv : ¬ (r.status_code = requestsCodesOk ∧ pyIn "is_valid:true" r.content = true)) :
    get_authenticated_user cbArgs post endpoint = .ok none := by
  simp only [get_authenticated_user]
  rw [hpost]
  simp only [on_authentication_verified, if_pos hinv]

def c1wArgs : Args := [("openid.mode", "id_res"), ("openid.claimed_id", "id1")]

def c1wPost : String → Args → Except TransportError Response :=
  fun _ _ => .ok ⟨200, "is_valid:false\n"⟩

theorem C1_witness :
    get_authenticated_user c1wArgs c1wPost googleEndpoint = .ok none :=
  C1_invalid_assertion_nil_profile_no_error c1wArgs c1wPost googleEndpoint
    ⟨200, "is_valid:false\n"⟩ rfl (by decide)

/-- **C8.** When the verification call cannot complete, the transport
exception propagates out of `get_authenticated_user` unchanged (there is no
try/except around `requests.post`): the outcome is a distinct error, never
the negative-authentication value `.ok none`. -/
theorem C8_transport_error_distinct_from_rejection
    (cbArgs : Args) (post : String → Args → Except TransportError Response)
    (endpoint : String) (e : TransportError)
    (hpost : post (getArgD cbArgs "openid.op_endpoint" endpoint)
        (setArg cbArgs "openid.mode" "check_authentication") = .error e) :
    get_authenticated_user cbArgs post endpoint = .error e ∧
    ∀ u : Option UserProfile, get_authenticated_user cbArgs post endpoint ≠ .ok u := by
  have h : get_authenticated_user cbArgs post endpoint = .error e := by
    simp only [get_authenticated_user]
    rw [hpost]
  exact ⟨h, fun u hu => by rw [h] at hu; cases hu⟩

def c8wPost : String → Args → Except TransportError Response :=
  fun _ _ => .error ⟨"connection timed out"⟩

theorem C8_witness :
    get_authenticated_user c1wArgs c8wPost googleEndpoint = .error ⟨"connection timed out"⟩ ∧
    ∀ u : Option UserProfile, get_authenticated_user c1wArgs c8wPost googleEndpoint ≠ .ok u :=
  C8_transport_error_distinct_from_rejection c1wArgs c8wPost googleEndpoint
    ⟨"connection timed out"⟩ rfl

/-- **C10.** The redirect URL joins the encoded parameters with `&` when the
endpoint already contains `?` and with `?` otherwise; in particular the
federated endpoint (which always ends in `?be=o8`) keeps its own query
string intact in the redirect URL. -/
theorem C10_redirect_join_preserves_endpoint_query (endpoint qs domain : String) :
    (pyIn "?" endpoint = true →
       authenticate_redirect_url endpoint qs = endpoint ++ "&" ++ qs)
  ∧ (pyIn "?" endpoint = false →
       authenticate_redirect_url endpoint qs = endpoint ++ "?" ++ qs)
  ∧ pyIn "?" (googleFederatedEndpoint domain) = true
  ∧ authenticate_redirect_url (googleFederatedEndpoint domain) qs
      = googleFederatedEndpoint domain ++ "&" ++ qs
  ∧ pyIn "be=o8" (authenticate_redirect_url (googleFederatedEndpoint domain) qs) = true := by
  have hfed : pyIn "?" (googleFederatedEndpoint domain) = true := by
    rw [pyIn, googleFederatedEndpoint, String.data_append]
    apply infixOf_append_left
    decide
  have hjoin : authenticate_redirect_url (googleFederatedEndpoint domain) qs
      = googleFederatedEndpoint domain ++ "&" ++ qs := by
    simp [authenticate_redirect_url, hfed]
  refine ⟨fun h => by simp [authenticate_redirect_url, h], fun h => by
    simp [authenticate_redirect_url, h], hfed, hjoin, ?_⟩
  rw [hjoin, pyIn, String.data_append]
  apply infixOf_append_right
  rw [String.data_append, googleFederatedEndpoint, String.data_append]
  apply infixOf_append_right
  apply infixOf_append_left
  decide

/-- Spec-side "present iff the source value is non-empty". -/
def optOfNonEmpty (s : String) : Option String :=
  if s ≠ "" then some s else none

/-- Spec-side `name` priority: explicit full name; else first and last joined
with a space when at least one is present; else the local part of the email
(text before the first `@`); else absent. -/
def specName (full fn ln em : String) : Option String :=
  if full ≠ "" then some full
  else if fn ≠ "" ∧ ln ≠ "" then some (fn ++ " " ++ ln)
  else if fn ≠ "" then some fn
  else if ln ≠ "" then some ln
  else if em ≠ "" then some (String.mk (takeUntilChar '@' em.data))
  else none

/-- **C4.** On every valid assertion the profile's `name` follows the spec's
priority, `first_name`/`last_name` are set independently whenever present,
and every profile field is omitted (not set to `""`) when its source value
is empty. -/
theorem C4_name_priority_and_field_omission (cbArgs : Args) (r : Response)
    (hst : r.status_code = requestsCodesOk)
    (htok : pyIn "is_valid:true" r.content = true) :
    ∃ u, on_authentication_verified cbArgs r = some u ∧
      u.name = specName (get_ax_arg cbArgs (findAxNs cbArgs) fullNameURI)
                        (get_ax_arg cbArgs (findAxNs cbArgs) firstNameURI)
                        (get_ax_arg cbArgs (findAxNs cbArgs) lastNameURI)
                        (get_ax_arg cbArgs (findAxNs cbArgs) emailURI) ∧
      u.first_name = optOfNonEmpty (get_ax_arg cbArgs (findAxNs cbArgs) firstNameURI) ∧
      u.last_name = optOfNonEmpty (get_ax_arg cbArgs (findAxNs cbArgs) lastNameURI) ∧
      u.email = optOfNonEmpty (get_ax_arg cbArgs (findAxNs cbArgs) emailURI) ∧
      u.locale = optOfNonEmpty (pyLower (get_ax_arg cbArgs (findAxNs cbArgs) languageURI)) ∧
      u.username = optOfNonEmpty (get_ax_arg cbArgs (findAxNs cbArgs) usernameURI) ∧
      u.identity = optOfNonEmpty (getArgD cbArgs "openid.claimed_id" "") := by
  rw [on_authentication_verified, if_neg (by simp [hst, htok])]
  refine ⟨_, rfl, ?_, rfl, rfl, rfl, rfl, rfl, rfl⟩
  set full := get_ax_arg cbArgs (findAxNs cbArgs) fullNameURI with hfull
  set fn := get_ax_arg cbArgs (findAxNs cbArgs) firstNameURI with hfn
  set ln := get_ax_arg cbArgs (findAxNs cbArgs) lastNameURI with hln
  set em := get_ax_arg cbArgs (findAxNs cbArgs) emailURI with hem
  by_cases h1 : full = "" <;> by_cases h2 : fn = "" <;> by_cases h3 : ln = "" <;>
    by_cases h4 : em = "" <;>
      simp [specName, h1, h2, h3, h4, pyJoin, pySplit_head]

theorem pyLower_empty : pyLower "" = "" := rfl

def exCurrentURL : URL := ⟨"http", "example.com", "/login/", ""⟩
def exCallbackURI : URL := ⟨"", "", "", ""⟩

/-- **C9.** Round trip for the attribute set `{email, username}`: the built
request carries exactly the email and username type-URIs, and verifying a
synthetic valid callback whose aliased AX type/value keys match those
type-URIs recovers exactly those two attributes — plus the derived `name`
(local part of the email) and `identity` (claimed id) — and no other AX
attribute (all other profile fields are absent). -/
theorem C9_round_trip_email_username :
    openidArgs exCurrentURL exCallbackURI c9Attrs = .ok c9BuiltArgs
  ∧ getArg c9Callback "openid.ext1.type.email" = getArg c9BuiltArgs "openid.ax.type.email"
  ∧ getArg c9Callback "openid.ext1.type.username"
      = getArg c9BuiltArgs "openid.ax.type.username"
  ∧ on_authentication_verified c9Callback c9Resp
      = some { name := some "u", email := some "u@x.com", username := some "bob",
               identity := some "https://www.google.com/accounts/o8/id?id=xyz" } := by
  refine ⟨?_, ?_, ?_, ?_⟩ <;> rfl


theorem getArg_es_none {l : List String} {es : Args}
    (h : buildTypeEntries l = .ok es) {k : String}
    (hk : ∀ n, n = "email" ∨ n = "language" ∨ n = "username" → "openid.ax.type." ++ n ≠ k) :
    getArg es k = none := by
  rw [getArg]
  have hf : es.find? (fun p => decide (p.1 = k)) = none := by
    rw [List.find?_eq_none]
    intro q hq
    obtain ⟨n, _, hna, hnk⟩ := buildTypeEntries_ok_mem h q hq
    have hne := hk n (getArg_knownAttrs_cases hna)
    simp [hnk, hne]
  rw [hf]
  rfl

theorem dedup_ne_nil {l : List String} (h : l ≠ []) : dedup l ≠ [] := by
  cases l with
  | nil => exact absurd rfl h
  | cons x xs => simp [dedup, dedupAux]

theorem buildTypeEntries_ok_head {n : String} {rest : List String} {es : Args}
    (h : buildTypeEntries (n :: rest) = .ok es) :
    ∃ uri es2, es = ("openid.ax.type." ++ n, uri) :: es2 := by
  cases hk : getArg knownAttrs n with
  | none => simp [buildTypeEntries, hk] at h
  | some uri =>
    cases hb : buildTypeEntries rest with
    | error e => simp [buildTypeEntries, hk, hb] at h
    | ok es2 =>
      simp [buildTypeEntries, hk, hb] at h
      exact ⟨uri, es2, h.symm⟩

theorem strStartsWith_append (p n : String) : strStartsWith (p ++ n) p = true := by
  rw [strStartsWith, String.data_append]
  exact List.isPrefixOf_iff_prefix.mpr (List.prefix_append _ _)

theorem mandatory_no_type_key (cur cb : URL) {p : String × String}
    (hp : p ∈ mandatoryArgs cur cb) : strStartsWith p.1 "openid.ax.type." = false := by
  simp only [mandatoryArgs, List.mem_cons, List.not_mem_nil, or_false] at hp
  rcases hp with rfl | rfl | rfl | rfl | rfl | rfl <;> rfl

theorem getArg_append5 {m ax nt es req : Args} {k : String} :
    getArg (m ++ ax ++ nt ++ es ++ req) k =
      ((((getArg m k).or (getArg ax k)).or (getArg nt k)).or (getArg es k)).or
        (getArg req k) := by
  rw [getArg_append, getArg_append, getArg_append, getArg_append]

/-- Success shape of `_openid_args` with a non-empty attribute list. -/
theorem openidArgs_ok_shape {cur cb : URL} {attrs : List String} {args : Args}
    (hne : attrs ≠ []) (hok : openidArgs cur cb attrs = .ok args) :
    ∃ es, buildTypeEntries (axRest attrs) = .ok es ∧
      args = mandatoryArgs cur cb ++ axFixedArgs ++
        (if "name" ∈ dedup attrs then nameTypeArgs else []) ++ es ++
        [("openid.ax.required", pyJoin "," (axRequiredHead attrs ++ axRest attrs))] := by
  rw [openidArgs, if_neg hne] at hok
  cases hbe : buildTypeEntries (axRest attrs) with
  | error e => rw [hbe] at hok; cases hok
  | ok es =>
    rw [hbe] at hok
    simp only [Except.ok.injEq] at hok
    exact ⟨es, rfl, hok.symm⟩

/-- **C3.** When `name` is among the requested attributes, the built request
contains no literal `openid.ax.type.name` key, contains the three expanded
type keys, and `openid.ax.required` starts with
`firstname,fullname,lastname` before any other requested attribute. -/
theorem C3_name_expansion (cur cb : URL) (attrs : List String) (args : Args)
    (hname : "name" ∈ attrs)
    (hok : openidArgs cur cb attrs = .ok args) :
    getArg args "openid.ax.type.name" = none
  ∧ getArg args "openid.ax.type.firstname" = some "http://axschema.org/namePerson/first"
  ∧ getArg args "openid.ax.type.fullname" = some "http://axschema.org/namePerson"
  ∧ getArg args "openid.ax.type.lastname" = some "http://axschema.org/namePerson/last"
  ∧ ∃ rest, getArg args "openid.ax.required"
        = some (pyJoin "," (["firstname", "fullname", "lastname"] ++ rest))
      ∧ (∀ a ∈ rest, a ∈ attrs) ∧ "name" ∉ rest := by
  have hne : attrs ≠ [] := by
    intro h
    subst h
    cases hname
  obtain ⟨es, hbe, rfl⟩ := openidArgs_ok_shape hne hok
  have hnd : "name" ∈ dedup attrs := mem_dedup.mpr hname
  rw [if_pos hnd]
  have hesName : getArg es "openid.ax.type.name" = none :=
    getArg_es_none hbe (by rintro n (rfl | rfl | rfl) <;> decide)
  have hesReq : getArg es "openid.ax.required" = none :=
    getArg_es_none hbe (by rintro n (rfl | rfl | rfl) <;> decide)
  refine ⟨?_, ?_, ?_, ?_, axRest attrs, ?_, ?_, ?_⟩
  · rw [getArg_append5, hesName]
    simp [mandatoryArgs, axFixedArgs, nameTypeArgs, getArg, List.find?, Option.or]
  · rw [getArg_append5]
    simp [mandatoryArgs, axFixedArgs, nameTypeArgs, getArg, List.find?, Option.or]
  · rw [getArg_append5]
    simp [mandatoryArgs, axFixedArgs, nameTypeArgs, getArg, List.find?, Option.or]
  · rw [getArg_append5]
    simp [mandatoryArgs, axFixedArgs, nameTypeArgs, getArg, List.find?, Option.or]
  · rw [getArg_append5, hesReq]
    rw [axRequiredHead, if_pos hnd]
    simp [mandatoryArgs, axFixedArgs, nameTypeArgs, getArg, List.find?, Option.or]
  · intro a ha
    rw [axRest, if_pos hnd] at ha
    exact mem_dedup.mp (List.mem_filter.mp ha).1
  · intro hmem
    rw [axRest, if_pos hnd] at hmem
    have := (List.mem_filter.mp hmem).2
    simp [nameExpansion] at this

def c3wAttrs : List String := ["name", "email"]

def c3wArgs : Args :=
  [("openid.ns", "http://specs.openid.net/auth/2.0"),
   ("openid.claimed_id", "http://specs.openid.net/auth/2.0/identifier_select"),
   ("openid.identity", "http://specs.openid.net/auth/2.0/identifier_select"),
   ("openid.return_to", "http://example.com/login/"),
   ("openid.realm", "http://example.com/"),
   ("openid.mode", "checkid_setup"),
   ("openid.ns.ax", "http://openid.net/srv/ax/1.0"),
   ("openid.ax.mode", "fetch_request"),
   ("openid.ax.type.firstname", "http://axschema.org/namePerson/first"),
   ("openid.ax.type.fullname", "http://axschema.org/namePerson"),
   ("openid.ax.type.lastname", "http://axschema.org/namePerson/last"),
   ("openid.ax.type.email", "http://axschema.org/contact/email"),
   ("openid.ax.required", "firstname,fullname,lastname,email")]

theorem C3_witness :
    getArg c3wArgs "openid.ax.type.name" = none
  ∧ getArg c3wArgs "openid.ax.type.firstname" = some "http://axschema.org/namePerson/first"
  ∧ getArg c3wArgs "openid.ax.type.fullname" = some "http://axschema.org/namePerson"
  ∧ getArg c3wArgs "openid.ax.type.lastname" = some "http://axschema.org/namePerson/last"
  ∧ ∃ rest, getArg c3wArgs "openid.ax.required"
        = some (pyJoin "," (["firstname", "fullname", "lastname"] ++ rest))
      ∧ (∀ a ∈ rest, a ∈ c3wAttrs) ∧ "name" ∉ rest :=
  C3_name_expansion exCurrentURL exCallbackURI c3wAttrs c3wArgs (by decide) rfl

/-- Field contents of every successfully built request (shared helper). -/
theorem openidArgs_fields {cur cb : URL} {attrs : List String} {args : Args}
    (hok : openidArgs cur cb attrs = .ok args) :
    getArg args "openid.ns" = some openidNsURI
  ∧ getArg args "openid.claimed_id" = some identifierSelect
  ∧ getArg args "openid.identity" = some identifierSelect
  ∧ getArg args "openid.return_to" = some (urlunsplit (urljoin cur cb))
  ∧ getArg args "openid.realm"
      = some (urlunsplit (urljoin (urljoin cur cb) ⟨"", "", "/", ""⟩))
  ∧ getArg args "openid.mode" = some "checkid_setup"
  ∧ ((getArg args "openid.ns.ax").isSome = true ↔ attrs ≠ [])
  ∧ ((getArg args "openid.ax.mode").isSome = true ↔ attrs ≠ [])
  ∧ ((getArg args "openid.ax.required").isSome = true ↔ attrs ≠ [])
  ∧ ((∃ p ∈ args, strStartsWith p.1 "openid.ax.type." = true) ↔ attrs ≠ [])
  ∧ (attrs ≠ [] →
      getArg args "openid.ns.ax" = some axNamespaceURI ∧
      getArg args "openid.ax.mode" = some "fetch_request") := by
  by_cases hne : attrs = []
  · subst hne
    rw [openidArgs, if_pos rfl] at hok
    simp only [Except.ok.injEq] at hok
    subst hok
    have htype : ¬ ∃ p ∈ mandatoryArgs cur cb, strStartsWith p.1 "openid.ax.type." = true := by
      rintro ⟨p, hp, hst⟩
      rw [mandatory_no_type_key cur cb hp] at hst
      cases hst
    refine ⟨?_, ?_, ?_, ?_, ?_, ?_, ?_, ?_, ?_, by simp [htype], ?_⟩ <;>
      simp [mandatoryArgs, getArg, List.find?]
  · obtain ⟨es, hbe, rfl⟩ := openidArgs_ok_shape hne hok
    have hesReq : getArg es "openid.ax.required" = none :=
      getArg_es_none hbe (by rintro n (rfl | rfl | rfl) <;> decide)
    have hesNsAx : getArg es "openid.ns.ax" = none :=
      getArg_es_none hbe (by rintro n (rfl | rfl | rfl) <;> decide)
    have hesAxMode : getArg es "openid.ax.mode" = none :=
      getArg_es_none hbe (by rintro n (rfl | rfl | rfl) <;> decide)
    have htype : (∃ p ∈ mandatoryArgs cur cb ++ axFixedArgs ++
          (if "name" ∈ dedup attrs then nameTypeArgs else []) ++ es ++
          [("openid.ax.required", pyJoin "," (axRequiredHead attrs ++ axRest attrs))],
        strStartsWith p.1 "openid.ax.type." = true) ↔ attrs ≠ [] := by
      refine ⟨fun _ => hne, fun _ => ?_⟩
      by_cases hnm : "name" ∈ dedup attrs
      · refine ⟨("openid.ax.type.firstname", "http://axschema.org/namePerson/first"),
          ?_, by decide⟩
        simp [List.mem_append, nameTypeArgs, hnm]
      · have hrne : axRest attrs ≠ [] := by
          rw [axRest, if_neg hnm]
          exact dedup_ne_nil hne
        cases hr : axRest attrs with
        | nil => exact absurd hr hrne
        | cons n rest2 =>
          rw [hr] at hbe
          obtain ⟨uri, es2, hes⟩ := buildTypeEntries_ok_head hbe
          refine ⟨("openid.ax.type." ++ n, uri), ?_, strStartsWith_append _ _⟩
          subst hes
          simp [List.mem_append]
    simp only [getArg] at hesReq hesNsAx hesAxMode
    refine ⟨?_, ?_, ?_, ?_, ?_, ?_, ?_, ?_, ?_, htype, ?_⟩ <;>
      by_cases hnm : "name" ∈ dedup attrs <;>
        rw [getArg_append5] <;>
          simp [hnm, hne, hesReq, hesNsAx, hesAxMode, mandatoryArgs, axFixedArgs,
            nameTypeArgs, getArg, List.find?, Option.or]

/-- **C6.** Every successfully built request contains the mandatory OpenID
2.0 fields (fixed namespace URI, identifier-select placeholders,
`mode=checkid_setup`, resolved `return_to`, site-root `realm`), and the AX
fields — `openid.ns.ax`, `openid.ax.mode`, the `openid.ax.type.*` keys and
`openid.ax.required` — are present if and only if at least one attribute was
requested. -/
theorem C6_mandatory_fields_and_ax_iff (cur cb : URL) (attrs : List String) (args : Args)
    (hok : openidArgs cur cb attrs = .ok args) :
    getArg args "openid.ns" = some openidNsURI
  ∧ getArg args "openid.claimed_id" = some identifierSelect
  ∧ getArg args "openid.identity" = some identifierSelect
  ∧ getArg args "openid.return_to" = some (urlunsplit (urljoin cur cb))
  ∧ getArg args "openid.realm"
      = some (urlunsplit (urljoin (urljoin cur cb) ⟨"", "", "/", ""⟩))
  ∧ getArg args "openid.mode" = some "checkid_setup"
  ∧ ((getArg args "openid.ns.ax").isSome = true ↔ attrs ≠ [])
  ∧ ((getArg args "openid.ax.mode").isSome = true ↔ attrs ≠ [])
  ∧ ((getArg args "openid.ax.required").isSome = true ↔ attrs ≠ [])
  ∧ ((∃ p ∈ args, strStartsWith p.1 "openid.ax.type." = true) ↔ attrs ≠ [])
  ∧ (attrs ≠ [] →
      getArg args "openid.ns.ax" = some axNamespaceURI ∧
      getArg args "openid.ax.mode" = some "fetch_request") :=
  openidArgs_fields hok

def c6wArgs : Args :=
  [("openid.ns", "http://specs.openid.net/auth/2.0"),
   ("openid.claimed_id", "http://specs.openid.net/auth/2.0/identifier_select"),
   ("openid.identity", "http://specs.openid.net/auth/2.0/identifier_select"),
   ("openid.return_to", "http://example.com/login/"),
   ("openid.realm", "http://example.com/"),
   ("openid.mode", "checkid_setup")]

theorem C6_witness :
    getArg c6wArgs "openid.ns" = some openidNsURI
  ∧ getArg c6wArgs "openid.claimed_id" = some identifierSelect
  ∧ getArg c6wArgs "openid.identity" = some identifierSelect
  ∧ getArg c6wArgs "openid.return_to"
      = some (urlunsplit (urljoin exCurrentURL exCallbackURI))
  ∧ getArg c6wArgs "openid.realm"
      = some (urlunsplit (urljoin (urljoin exCurrentURL exCallbackURI) ⟨"", "", "/", ""⟩))
  ∧ getArg c6wArgs "openid.mode" = some "checkid_setup"
  ∧ ((getArg c6wArgs "openid.ns.ax").isSome = true ↔ ([] : List String) ≠ [])
  ∧ ((getArg c6wArgs "openid.ax.mode").isSome = true ↔ ([] : List String) ≠ [])
  ∧ ((getArg c6wArgs "openid.ax.required").isSome = true ↔ ([] : List String) ≠ [])
  ∧ ((∃ p ∈ c6wArgs, strStartsWith p.1 "openid.ax.type." = true) ↔ ([] : List String) ≠ [])
  ∧ (([] : List String) ≠ [] →
      getArg c6wArgs "openid.ns.ax" = some axNamespaceURI ∧
      getArg c6wArgs "openid.ax.mode" = some "fetch_request") :=
  C6_mandatory_fields_and_ax_iff exCurrentURL exCallbackURI [] c6wArgs rfl

theorem urljoin_root {rt : URL} (hs : rt.scheme = "http" ∨ rt.scheme = "https")
    (hn : rt.netloc ≠ "") :
    urljoin rt ⟨"", "", "/", ""⟩ = ⟨rt.scheme, rt.netloc, "/", ""⟩ := by
  obtain ⟨s, n, p, q⟩ := rt
  simp only at hs hn ⊢
  rcases hs with rfl | rfl <;>
    simp [urljoin, emptyURL, usesRelative, usesNetloc, hn, strStartsWith, List.isPrefixOf]

theorem urljoin_scheme_netloc {base cb : URL}
    (hs : base.scheme = "http" ∨ base.scheme = "https") (hn : base.netloc ≠ "")
    (hcb : cb.scheme = "" ∨ ((cb.scheme = "http" ∨ cb.scheme = "https") ∧ cb.netloc ≠ "")) :
    ((urljoin base cb).scheme = "http" ∨ (urljoin base cb).scheme = "https")
    ∧ (urljoin base cb).netloc ≠ "" := by
  obtain ⟨bs, bn, bp, bq⟩ := base
  obtain ⟨cs, cn, cp, cq⟩ := cb
  simp only at hs hn hcb ⊢
  by_cases hemp : (URL.mk cs cn cp cq) = emptyURL
  · rcases hs with rfl | rfl <;>
      simp [urljoin, hemp, emptyURL, hn]
  · rcases hcb with rfl | ⟨hcs, hcn⟩
    · rcases hs with rfl | rfl <;>
        by_cases h1 : cn = "" <;>
          by_cases h2 : strStartsWith cp "/" <;>
            by_cases h3 : cp = "" <;>
              simp [urljoin, hemp, emptyURL, usesRelative, usesNetloc, hn, h1, h2, h3] <;>
                split_ifs <;> simp [hn]
    · rcases hcs with rfl | rfl <;> rcases hs with rfl | rfl <;>
        simp [urljoin, hemp, emptyURL, usesRelative, usesNetloc, hn, hcn]

/-- **C7.** With the current URL an absolute http(s) URL (as `request.url`
always is) and the callback URI relative or an absolute http(s) URL, the
built `openid.return_to` is the resolution of the callback URI against the
current URL — an absolute URL — and `openid.realm` is the site root
(scheme + host + `/`) of that resolved URL, so `return_to` shares `realm`'s
origin. -/
theorem C7_return_to_realm_share_origin (cur cb : URL) (attrs : List String) (args : Args)
    (hsc : cur.scheme = "http" ∨ cur.scheme = "https") (hnl : cur.netloc ≠ "")
    (hcb : cb.scheme = "" ∨ ((cb.scheme = "http" ∨ cb.scheme = "https") ∧ cb.netloc ≠ ""))
    (hok : openidArgs cur cb attrs = .ok args) :
    getArg args "openid.return_to" = some (urlunsplit (urljoin cur cb))
  ∧ ((urljoin cur cb).scheme = "http" ∨ (urljoin cur cb).scheme = "https")
  ∧ (urljoin cur cb).netloc ≠ ""
  ∧ getArg args "openid.realm"
      = some (urlunsplit ⟨(urljoin cur cb).scheme, (urljoin cur cb).netloc, "/", ""⟩)
  ∧ urljoin (urljoin cur cb) ⟨"", "", "/", ""⟩
      = ⟨(urljoin cur cb).scheme, (urljoin cur cb).netloc, "/", ""⟩ := by
  obtain ⟨hjs, hjn⟩ := urljoin_scheme_netloc hsc hnl hcb
  have hroot := urljoin_root hjs hjn
  obtain ⟨hns, -, -, hrt, hrealm, -, -, -, -, -, -⟩ := openidArgs_fields hok
  rw [hroot] at hrealm
  exact ⟨hrt, hjs, hjn, hrealm, hroot⟩

theorem C7_witness :
    getArg c6wArgs "openid.return_to"
      = some (urlunsplit (urljoin exCurrentURL exCallbackURI))
  ∧ ((urljoin exCurrentURL exCallbackURI).scheme = "http" ∨
      (urljoin exCurrentURL exCallbackURI).scheme = "https")
  ∧ (urljoin exCurrentURL exCallbackURI).netloc ≠ ""
  ∧ getArg c6wArgs "openid.realm"
      = some (urlunsplit ⟨(urljoin exCurrentURL exCallbackURI).scheme,
          (urljoin exCurrentURL exCallbackURI).netloc, "/", ""⟩)
  ∧ urljoin (urljoin exCurrentURL exCallbackURI) ⟨"", "", "/", ""⟩
      = ⟨(urljoin exCurrentURL exCallbackURI).scheme,
         (urljoin exCurrentURL exCallbackURI).netloc, "/", ""⟩ :=
  C7_return_to_realm_share_origin exCurrentURL exCallbackURI [] c6wArgs
    (Or.inl rfl) (by decide) (Or.inl rfl) rfl

def c4wResp : Response := ⟨200, "ns:http://specs.openid.net/auth/2.0\nis_valid:true\n"⟩

/-- The claim's description of the AX double indirection: the suffix of the
first callback key `openid.<alias>.type.<suffix>` whose value equals the
type-URI. -/
def firstTypeSuffix (args : Args) (ns uri : String) : Option String :=
  (args.find? (fun p => decide (getArg args p.1 = some uri) &&
      strStartsWith p.1 ("openid." ++ ns ++ ".type."))).map
    (fun p => strDrop p.1 (strLen ("openid." ++ ns ++ ".type.")))

/-- **C2.** AX attribute values come from the double indirection
`openid.<alias>.type.<suffix> = type-URI`, then `openid.<alias>.value.<suffix>`;
with no alias or no matching type key the value is the empty string and the
corresponding profile field is absent, while the assertion stays valid and
`identity` is still set from a non-empty `openid.claimed_id`. -/
theorem C2_ax_double_indirection_and_graceful_absence (cbArgs : Args) (r : Response)
    (hst : r.status_code = requestsCodesOk)
    (htok : pyIn "is_valid:true" r.content = true) :
    (∀ ns uri suffix, ns ≠ "" → firstTypeSuffix cbArgs ns uri = some suffix →
       get_ax_arg cbArgs (some ns) uri
         = getArgD cbArgs ("openid." ++ ns ++ ".value." ++ suffix) "")
  ∧ (∀ ns uri, ns ≠ "" → firstTypeSuffix cbArgs ns uri = none →
       get_ax_arg cbArgs (some ns) uri = "")
  ∧ (∀ uri, get_ax_arg cbArgs none uri = "")
  ∧ (∃ u, on_authentication_verified cbArgs r = some u ∧
      (get_ax_arg cbArgs (findAxNs cbArgs) emailURI = "" → u.email = none) ∧
      (get_ax_arg cbArgs (findAxNs cbArgs) firstNameURI = "" → u.first_name = none) ∧
      (get_ax_arg cbArgs (findAxNs cbArgs) lastNameURI = "" → u.last_name = none) ∧
      (get_ax_arg cbArgs (findAxNs cbArgs) usernameURI = "" → u.username = none) ∧
      (get_ax_arg cbArgs (findAxNs cbArgs) languageURI = "" → u.locale = none) ∧
      (findAxNs cbArgs = none →
        u = { identity := u.identity } ∧
        ∀ cid, getArg cbArgs "openid.claimed_id" = some cid → cid ≠ "" →
          u.identity = some cid)) := by
  refine ⟨?_, ?_, ?_, ?_⟩
  · intro ns uri suffix hns hsuf
    rw [firstTypeSuffix] at hsuf
    cases hf : cbArgs.find? (fun p => decide (getArg cbArgs p.1 = some uri) &&
        strStartsWith p.1 ("openid." ++ ns ++ ".type.")) with
    | none => rw [hf] at hsuf; cases hsuf
    | some p =>
      rw [hf] at hsuf
      simp only [Option.map_some', Option.some.injEq] at hsuf
      simp [get_ax_arg, hns, hf, hsuf]
  · intro ns uri hns hsuf
    rw [firstTypeSuffix] at hsuf
    cases hf : cbArgs.find? (fun p => decide (getArg cbArgs p.1 = some uri) &&
        strStartsWith p.1 ("openid." ++ ns ++ ".type.")) with
    | none => simp [get_ax_arg, hns, hf]
    | some p => rw [hf] at hsuf; cases hsuf
  · intro uri
    rfl
  · rw [on_authentication_verified, if_neg (by simp [hst, htok])]
    refine ⟨_, rfl, ?_, ?_, ?_, ?_, ?_, ?_⟩
    · intro h; simp [h]
    · intro h; simp [h]
    · intro h; simp [h]
    · intro h; simp [h]
    · intro h; simp [h, pyLower_empty]
    · intro hns
      constructor
      · simp [get_ax_arg, hns, pyLower_empty]
      · intro cid hcid hne
        simp [getArgD, hcid, hne]

def c2wArgs : Args := [("openid.mode", "id_res"), ("openid.claimed_id", "id1")]

theorem C2_witness :
    (∀ ns uri suffix, ns ≠ "" → firstTypeSuffix c2wArgs ns uri = some suffix →
       get_ax_arg c2wArgs (some ns) uri
         = getArgD c2wArgs ("openid." ++ ns ++ ".value." ++ suffix) "")
  ∧ (∀ ns uri, ns ≠ "" → firstTypeSuffix c2wArgs ns uri = none →
       get_ax_arg c2wArgs (some ns) uri = "")
  ∧ (∀ uri, get_ax_arg c2wArgs none uri = "")
  ∧ (∃ u, on_authentication_verified c2wArgs c4wResp = some u ∧
      (get_ax_arg c2wArgs (findAxNs c2wArgs) emailURI = "" → u.email = none) ∧
      (get_ax_arg c2wArgs (findAxNs c2wArgs) firstNameURI = "" → u.first_name = none) ∧
      (get_ax_arg c2wArgs (findAxNs c2wArgs) lastNameURI = "" → u.last_name = none) ∧
      (get_ax_arg c2wArgs (findAxNs c2wArgs) usernameURI = "" → u.username = none) ∧
      (get_ax_arg c2wArgs (findAxNs c2wArgs) languageURI = "" → u.locale = none) ∧
      (findAxNs c2wArgs = none →
        u = { identity := u.identity } ∧
        ∀ cid, getArg c2wArgs "openid.claimed_id" = some cid → cid ≠ "" →
          u.identity = some cid)) :=
  C2_ax_double_indirection_and_graceful_absence c2wArgs c4wResp rfl (by decide)

/-- The spec's own example: first_name "Ann", last_name "Lee", no full name. -/
def c4wArgs : Args :=
  [("openid.claimed_id", "id1"),
   ("openid.ns.ax", "http://openid.net/srv/ax/1.0"),
   ("openid.ax.type.fn", "http://axschema.org/namePerson/first"),
   ("openid.ax.value.fn", "Ann"),
   ("openid.ax.type.ln", "http://axschema.org/namePerson/last"),
   ("openid.ax.value.ln", "Lee")]

theorem C4_witness :
    ∃ u, on_authentication_verified c4wArgs c4wResp = some u ∧
      u.name = specName (get_ax_arg c4wArgs (findAxNs c4wArgs) fullNameURI)
                        (get_ax_arg c4wArgs (findAxNs c4wArgs) firstNameURI)
                        (get_ax_arg c4wArgs (findAxNs c4wArgs) lastNameURI)
                        (get_ax_arg c4wArgs (findAxNs c4wArgs) emailURI) ∧
      u.first_name = optOfNonEmpty (get_ax_arg c4wArgs (findAxNs c4wArgs) firstNameURI) ∧
      u.last_name = optOfNonEmpty (get_ax_arg c4wArgs (findAxNs c4wArgs) lastNameURI) ∧
      u.email = optOfNonEmpty (get_ax_arg c4wArgs (findAxNs c4wArgs) emailURI) ∧
      u.locale = optOfNonEmpty (pyLower (get_ax_arg c4wArgs (findAxNs c4wArgs) languageURI)) ∧
      u.username = optOfNonEmpty (get_ax_arg c4wArgs (findAxNs c4wArgs) usernameURI) ∧
      u.identity = optOfNonEmpty (getArgD c4wArgs "openid.claimed_id" "") :=
  C4_name_priority_and_field_omission c4wArgs c4wResp rfl (by decide)

/-- **C5 counterexample.** `"fullname"` is a requested attribute outside the
known set `{name, email, language, username}`, yet building the request with
`["name", "fullname"]` succeeds (no error is raised): the subtraction
`ax_attrs -= set(["name", "firstname", "fullname", "lastname"])` silently
absorbs it together with `name`. -/
theorem C5_counterexample :
    "fullname" ∈ (["name", "fullname"] : List String) ∧
    "fullname" ∉ (["name", "email", "language", "username"] : List String) ∧
    exceptIsOk (openidArgs exCurrentURL exCallbackURI ["name", "fullname"]) = true := by
  refine ⟨by decide, by decide, by decide⟩

/-- **C5 (amended).** Requesting an attribute name outside
`{name, email, language, username}` makes the build fail fast with an error
(the `KeyError` of `known_attrs[name]`, the spec's `UnknownAttributeError`)
and no partial parameter set is returned — except that `firstname`,
`fullname` and `lastname` are accepted without error when `name` is also
requested, being subsumed by the `name` expansion. -/
theorem C5_amended_unknown_attribute_fails_fast
    (cur cb : URL) (attrs : List String) (a : String)
    (ha : a ∈ attrs)
    (hunk : a ∉ (["name", "email", "language", "username"] : List String))
    (hexp : ¬ ("name" ∈ attrs ∧ a ∈ (["firstname", "fullname", "lastname"] : List String))) :
    ∃ e, openidArgs cur cb attrs = .error e := by
  have hne : attrs ≠ [] := by
    intro h
    subst h
    cases ha
  have hknown : getArg knownAttrs a = none := by
    cases hk : getArg knownAttrs a with
    | none => rfl
    | some u =>
      rcases getArg_knownAttrs_cases hk with rfl | rfl | rfl <;> simp at hunk
  have hrest : a ∈ axRest attrs := by
    rw [axRest]
    by_cases hnm : "name" ∈ dedup attrs
    · rw [if_pos hnm]
      have hnexp : a ∉ nameExpansion := by
        intro hmem
        rw [nameExpansion] at hmem
        rcases List.mem_cons.mp hmem with rfl | hmem
        · simp at hunk
        · exact hexp ⟨mem_dedup.mp hnm, hmem⟩
      exact List.mem_filter.mpr ⟨mem_dedup.mpr ha, by simpa using hnexp⟩
    · rw [if_neg hnm]
      exact mem_dedup.mpr ha
  obtain ⟨e, he⟩ := buildTypeEntries_error_of_unknown hrest hknown
  refine ⟨e, ?_⟩
  simp only [openidArgs, if_neg hne]
  rw [he]

theorem C5_witness :
    ∃ e, openidArgs exCurrentURL exCallbackURI ["email", "nickname"] = .error e :=
  C5_amended_unknown_attribute_fails_fast exCurrentURL exCallbackURI
    ["email", "nickname"] "nickname" (by decide) (by decide) (by decide)

theorem C10_witness :
    authenticate_redirect_url (googleFederatedEndpoint "corp.example") "openid.ns=x"
      = googleFederatedEndpoint "corp.example" ++ "&" ++ "openid.ns=x" :=
  (C10_redirect_join_preserves_endpoint_query
    (googleFederatedEndpoint "corp.example") "openid.ns=x" "corp.example").2.2.2.1

end FlaskGoogleAuth
